import Mathlib

set_option maxRecDepth 100000

/-!
Verification of the okomo-voice-bridge core (src/server.js) against its
natural-language specification.  The JavaScript is shallowly embedded:
numbers are modelled as Int with explicit 32-bit wrapping where the code
uses JS bitwise operators, the per-connection closure state is an explicit
Session structure, and the asynchronous callbacks (websocket messages,
speech-engine events, interval ticks, timer fires) are an event type with a
total step function.
-/

/- ===== JS 32-bit integer primitives (ToInt32 semantics of the bitwise ops) ===== -/

/-- Reinterpret a 32-bit unsigned representative as a signed 32-bit value. -/
def int32ofNat (n : Nat) : Int :=
  if n < 2147483648 then (n : Int) else (n : Int) - 4294967296

/-- JS ToInt32: reduce an integer to its 32-bit twos-complement value. -/
def toInt32 (a : Int) : Int := int32ofNat ((a % 4294967296).toNat)

/-- Bitwise and on 32-bit representatives, bit by bit with explicit fuel
(32 bits), so the kernel can evaluate it. -/
def natAndGo : Nat → Nat → Nat → Nat
  | 0, _, _ => 0
  | f + 1, a, b => (a % 2) * (b % 2) + 2 * natAndGo f (a / 2) (b / 2)

/-- Bitwise or on 32-bit representatives. -/
def natOrGo : Nat → Nat → Nat → Nat
  | 0, _, _ => 0
  | f + 1, a, b => (a % 2 + b % 2 - (a % 2) * (b % 2)) + 2 * natOrGo f (a / 2) (b / 2)

/-- JS a and b (32-bit bitwise and). -/
def jsAnd (a b : Int) : Int :=
  int32ofNat (natAndGo 32 ((a % 4294967296).toNat) ((b % 4294967296).toNat))

/-- JS a or b (32-bit bitwise or). -/
def jsOr (a b : Int) : Int :=
  int32ofNat (natOrGo 32 ((a % 4294967296).toNat) ((b % 4294967296).toNat))

/-- JS bitwise complement on 32 bits. -/
def jsNot (a : Int) : Int :=
  int32ofNat (4294967295 - (a % 4294967296).toNat)

/-- JS signed shift right (arithmetic shift, shift count taken mod 32). -/
def jsShr (a : Int) (k : Nat) : Int :=
  Int.fdiv (toInt32 a) ((2 : Int) ^ (k % 32))

/-- JS shift left on 32 bits (shift count taken mod 32). -/
def jsShl (a : Int) (k : Nat) : Int :=
  toInt32 (toInt32 a * (2 : Int) ^ (k % 32))

/- ===== mu-law encoder, from src/server.js lines 22-32 ===== -/

/-- MU_LAW_MAX constant of server.js. -/
def MU_LAW_MAX : Int := 0x1FFF

/-- BIAS constant of server.js. -/
def BIAS : Int := 0x84

/-- The segment loop of linear2ulaw: for (let v = pcm >> 7; v; v >>= 1) seg++.
At the point of the loop pcm is nonnegative, so v is run on Nat; the value
itself bounds the number of halvings, giving structural fuel. -/
def segLoopGo : Nat → Nat → Nat
  | 0, _ => 0
  | f + 1, v => if v = 0 then 0 else segLoopGo f (v / 2) + 1

/-- Number of iterations of the segment loop started at v. -/
def segLoop (v : Nat) : Nat := segLoopGo v v

/-- linear2ulaw of server.js lines 23-32, translated operation by operation:
clamp to the 16-bit range, extract the sign bit as (pcm >> 8) and 0x80,
negate, clip at MU_LAW_MAX, add BIAS, count segment bits from pcm >> 7,
assemble (seg << 4) or mantissa, return the complemented byte. -/
def linear2ulaw (sample : Int) : Int :=
  let pcm0 : Int := max (-32768) (min 32767 sample)
  let sign : Int := jsAnd (jsShr pcm0 8) 0x80
  let pcm1 : Int := if sign ≠ 0 then -pcm0 else pcm0
  let pcm2 : Int := if pcm1 > MU_LAW_MAX then MU_LAW_MAX else pcm1
  let pcm3 : Int := pcm2 + BIAS
  let seg : Nat := segLoop ((jsShr pcm3 7).toNat)
  let uval : Int := jsOr (jsShl (seg : Int) 4) (jsAnd (jsShr pcm3 (seg + 3)) 0x0F)
  jsAnd (jsNot (jsOr uval sign)) 0xFF

/-- Bitwise and for small naturals (used by the modelled decoder). -/
def natAnd (a b : Nat) : Nat := natAndGo 32 a b

/-- Modelled from the spec: the decoder decode(byte) -> int16 is absent from
src/ (only the encoder appears there); section 4.1 of the spec requires the
standard logarithmic telephony companding law, 8-bit code = sign bit +
3-bit segment + 4-bit mantissa with bias, so this is the standard mu-law
expansion: complement the byte, rebuild (mantissa << 3) + BIAS shifted by
the segment, and subtract the bias with the sign applied. -/
def ulaw2linear (b : Nat) : Int :=
  let v := 255 - b % 256
  let q := natAnd v 0x0F
  let s := natAnd v 0x70 / 16
  let t : Int := ((q * 8 + 132) * 2 ^ s : Nat)
  if natAnd v 0x80 = 128 then 132 - t else t - 132


/- ===== tone framing, from src/server.js lines 33-46 ===== -/

/-- The chunking loop of makeBeepFrames: for (i = 0; i < ulaw.length; i += 160)
frames.push(ulaw.slice(i, i + 160)).  Written with the list length as
structural fuel so that the kernel can evaluate it. -/
def chunksGo {α : Type} : Nat → List α → List (List α)
  | 0, _ => []
  | _ + 1, [] => []
  | f + 1, x :: l => (x :: l).take 160 :: chunksGo f ((x :: l).drop 160)

/-- Split a list into consecutive chunks of 160 elements (the last chunk may
be shorter), exactly as the slicing loop of makeBeepFrames does. -/
def chunk160 {α : Type} (l : List α) : List (List α) := chunksGo l.length l

/-- makeBeepFrames of server.js lines 33-45: synthesize N = 8000 * secs
samples and chunk them into 160-byte frames.  The per-sample value
(linear2ulaw of a scaled floating-point sine) is abstracted as a function
of the sample index, since the framing properties do not depend on it. -/
def makeBeepFrames (secs : Nat) (sample : Nat → Nat) : List (List Nat) :=
  chunk160 ((List.range (8000 * secs)).map sample)

/- ===== frame scheduler, from src/server.js lines 197-208 and 240-245 ===== -/

/-- State of one setInterval playback loop: the frame sequence, the cursor i,
whether the timer is still armed, and the frames emitted so far. -/
structure SchedState where
  frames : List (List Nat)
  i : Nat
  active : Bool
  emitted : List (List Nat)
  deriving DecidableEq

/-- One interval tick, exactly the callback body of the playback loops:
a cleared timer does nothing; if the socket is no longer open the timer is
cleared and nothing is emitted (and no error is raised, the callback just
returns); if the cursor has passed the last frame the timer is cleared;
otherwise frames[i] is emitted and the cursor advances. -/
def schedTick (writable : Bool) (st : SchedState) : SchedState :=
  if st.active = false then st
  else if writable = false then { st with active := false }
  else if st.frames.length ≤ st.i then { st with active := false }
  else { st with emitted := st.emitted ++ [st.frames.getD st.i []], i := st.i + 1 }

/-- Run the scheduler over a sequence of per-tick sink-writability
observations. -/
def schedRun (st : SchedState) (ws : List Bool) : SchedState :=
  ws.foldl (fun s w => schedTick w s) st

/-- Initial scheduler state for a frame sequence. -/
def schedInit (frames : List (List Nat)) : SchedState :=
  { frames := frames, i := 0, active := true, emitted := [] }

/-- Internal invariant of a playback run: the cursor never passes the end and
the emitted list is exactly the prefix of the frame sequence up to the
cursor. -/
def SchedGood (frames : List (List Nat)) (st : SchedState) : Prop :=
  st.frames = frames ∧ st.i ≤ frames.length ∧ st.emitted = frames.take st.i

/- ===== per-connection session model, from src/server.js lines 159-288 ===== -/

/-- State of one setInterval playback job inside the session (the beep loop,
the greeting loop, or a reply loop). -/
structure PlayJob where
  frames : List (List Nat)
  idx : Nat
  active : Bool
  deriving DecidableEq

/-- A pending setTimeout that will call startSTTStream: the 50 ms restart
after a completed reply is guarded by a readyState check, the 100 ms restart
after a synthesis failure is not. -/
structure PendingRestart where
  guarded : Bool
  delayMs : Nat
  deriving DecidableEq

/-- Outbound websocket messages sent by the session (the streamSid field of
the JSON envelope is the closure variable at send time; a mark label is the
Date.now() value, tts-prefixed in the code). -/
inductive OutMsg where
  | clear (sid : Option Nat)
  | media (sid : Option Nat) (payload : List Nat)
  | mark (sid : Option Nat) (label : Nat)
  deriving DecidableEq

/-- Events delivered to one connection: the five transport messages, socket
closure, the speech-engine stream callbacks (tagged with the identifier of
the stream they fire on), resolution or rejection of the greeting and reply
synthesis promises, interval ticks (a reply tick carries Date.now()), and
the firing of a scheduled restart. -/
inductive Ev where
  | msgConnected
  | msgStart (sid : Nat)
  | msgMedia (payload : List Nat)
  | msgMark
  | msgStop
  | wsClose
  | sttFinal (id : Nat)
  | sttInterim (id : Nat)
  | sttError (id : Nat)
  | sttEnd (id : Nat)
  | greetResolved (frames : List (List Nat))
  | greetRejected
  | ttsResolved (frames : List (List Nat))
  | ttsRejected
  | beepTick (j : Nat)
  | greetTick (j : Nat)
  | replyTick (j : Nat) (now : Nat)
  | restartFire (j : Nat)
  deriving DecidableEq

/-- The closure state of one wss connection handler, plus bookkeeping that
makes the externally visible behaviour explicit: identifiers of engine
streams created so far (sttGen), the streams not yet ended (openStreams),
the streams that have already produced their single final result
(finalized, per the single-utterance engine contract), the playback jobs,
the pending restart timers, everything sent on the socket (outMsgs) and
every write made to an STT stream (sttWrites). -/
structure Session where
  wsOpen : Bool
  streamSid : Option Nat
  sttGen : Nat
  sttStream : Option Nat
  openStreams : List Nat
  finalized : List Nat
  sttClosed : Bool
  speaking : Bool
  mediaCount : Nat
  greetPending : Nat
  replyPending : Nat
  beepJobs : List PlayJob
  greetJobs : List PlayJob
  replyJobs : List PlayJob
  pendingRestarts : List PendingRestart
  outMsgs : List OutMsg
  sttWrites : List (Nat × List Nat)
  deriving DecidableEq

/-- State on connection: everything empty, the socket open. -/
def Session.init : Session :=
  { wsOpen := true, streamSid := none, sttGen := 0, sttStream := none,
    openStreams := [], finalized := [], sttClosed := false, speaking := false,
    mediaCount := 0, greetPending := 0, replyPending := 0, beepJobs := [],
    greetJobs := [], replyJobs := [], pendingRestarts := [], outMsgs := [],
    sttWrites := [] }

/-- startSTTStream (lines 168-222): reset sttClosed, create a fresh engine
stream and point the sttStream closure variable at it.  The previously
referenced stream is not ended here. -/
def startSTT (s : Session) : Session :=
  { s with sttClosed := false, sttStream := some s.sttGen,
           openStreams := s.sttGen :: s.openStreams, sttGen := s.sttGen + 1 }

/-- The try-sttStream-end() pattern (lines 215, 278, 286): half-close the
currently referenced engine stream, swallowing errors; nothing else
changes — in particular sttClosed is not touched. -/
def endCurrentStream (s : Session) : Session :=
  match s.sttStream with
  | some id => { s with openStreams := s.openStreams.erase id }
  | none => s

/-- Body of the beep and greeting interval callbacks (lines 241-245 and
252-256) on the j-th job of a job list: cleared timers do nothing;
a non-open socket clears the timer; an exhausted cursor clears the timer;
otherwise one frame is sent and the cursor advances.  Returns the updated
job list and the messages sent. -/
def playTick (sid : Option Nat) (wsOpen : Bool) (jobs : List PlayJob) (j : Nat) :
    List PlayJob × List OutMsg :=
  match jobs[j]? with
  | none => (jobs, [])
  | some job =>
    if job.active = false then (jobs, [])
    else if wsOpen = false then (jobs.set j { job with active := false }, [])
    else if job.frames.length ≤ job.idx then (jobs.set j { job with active := false }, [])
    else (jobs.set j { job with idx := job.idx + 1 },
          [OutMsg.media sid (job.frames.getD job.idx [])])

/-- One step of the connection handler.  bf is the BEEP_FRAMES constant
(whose byte content comes from floating-point synthesis and is irrelevant
here).  Events whose source does not exist in the current state (a tick of
a timer that was never armed, a callback of a stream that was never
created, a final from a stream that already delivered its single
utterance) are no-ops. -/
def step (bf : List (List Nat)) (s : Session) (e : Ev) : Session :=
  match e with
  | .msgConnected => s
  | .msgStart sid =>
      startSTT
        { s with streamSid := some sid,
                 outMsgs := s.outMsgs ++ [OutMsg.clear (some sid)],
                 beepJobs := s.beepJobs ++ [{ frames := bf, idx := 0, active := true }],
                 greetPending := s.greetPending + 1 }
  | .msgMedia p =>
      let s1 := { s with mediaCount := s.mediaCount + 1 }
      if s.speaking then s1
      else if p = [] then s1
      else
        match s.sttStream with
        | none => s1
        | some id =>
            if s.sttClosed then s1
            else { s1 with sttWrites := s.sttWrites ++ [(id, p)] }
  | .msgMark => s
  | .msgStop => endCurrentStream s
  | .wsClose => endCurrentStream { s with wsOpen := false }
  | .sttFinal id =>
      if id ∈ s.openStreams ∧ id ∉ s.finalized then
        { s with finalized := id :: s.finalized, speaking := true,
                 replyPending := s.replyPending + 1 }
      else s
  | .sttInterim _ => s
  | .sttError _ => s
  | .sttEnd id =>
      if id < s.sttGen then
        { s with sttClosed := true, openStreams := s.openStreams.erase id }
      else s
  | .greetResolved frames =>
      if s.greetPending = 0 then s
      else { s with greetPending := s.greetPending - 1,
                    greetJobs := s.greetJobs ++ [{ frames := frames, idx := 0, active := true }] }
  | .greetRejected =>
      if s.greetPending = 0 then s
      else { s with greetPending := s.greetPending - 1 }
  | .ttsResolved frames =>
      if s.replyPending = 0 then s
      else
        endCurrentStream
          { s with replyPending := s.replyPending - 1,
                   replyJobs := s.replyJobs ++ [{ frames := frames, idx := 0, active := true }],
                   sttClosed := true }
  | .ttsRejected =>
      if s.replyPending = 0 then s
      else
        endCurrentStream
          { s with replyPending := s.replyPending - 1,
                   speaking := false,
                   pendingRestarts := s.pendingRestarts ++ [{ guarded := false, delayMs := 100 }],
                   sttClosed := true }
  | .beepTick j =>
      let r := playTick s.streamSid s.wsOpen s.beepJobs j
      { s with beepJobs := r.1, outMsgs := s.outMsgs ++ r.2 }
  | .greetTick j =>
      let r := playTick s.streamSid s.wsOpen s.greetJobs j
      { s with greetJobs := r.1, outMsgs := s.outMsgs ++ r.2 }
  | .replyTick j now =>
      match s.replyJobs[j]? with
      | none => s
      | some job =>
        if job.active = false then s
        else if s.wsOpen = false then
          { s with replyJobs := s.replyJobs.set j { job with active := false } }
        else if job.frames.length ≤ job.idx then
          { s with replyJobs := s.replyJobs.set j { job with active := false },
                   outMsgs := s.outMsgs ++ [OutMsg.mark s.streamSid now],
                   speaking := false,
                   pendingRestarts := s.pendingRestarts ++ [{ guarded := true, delayMs := 50 }] }
        else
          { s with replyJobs := s.replyJobs.set j { job with idx := job.idx + 1 },
                   outMsgs := s.outMsgs ++ [OutMsg.media s.streamSid (job.frames.getD job.idx [])] }
  | .restartFire j =>
      match s.pendingRestarts[j]? with
      | none => s
      | some r =>
        let s1 := { s with pendingRestarts := s.pendingRestarts.eraseIdx j }
        if r.guarded then (if s1.wsOpen then startSTT s1 else s1)
        else startSTT s1

/-- Run the session over a list of events. -/
def run (bf : List (List Nat)) (s : Session) (evs : List Ev) : Session :=
  evs.foldl (step bf) s

/-- A non-diagnostic playback job (greeting or reply; the beep is the
diagnostic warm-up) that is currently emitting frames: its timer is armed
and its cursor has not reached the end. -/
def nonDiagEmitting (s : Session) : Prop :=
  ∃ j ∈ s.greetJobs ++ s.replyJobs, j.active = true ∧ j.idx < j.frames.length

/-- Labels of the mark messages among a list of outbound messages. -/
def markLabels (ms : List OutMsg) : List Nat :=
  ms.filterMap fun m =>
    match m with
    | OutMsg.mark _ t => some t
    | _ => none

/-- Date.now() values carried by the reply ticks of an event list. -/
def replyTickTimes (evs : List Ev) : List Nat :=
  evs.filterMap fun e =>
    match e with
    | Ev.replyTick _ t => some t
    | _ => none

/-- Number of transport start events in an event list. -/
def startCount (evs : List Ev) : Nat :=
  evs.countP fun e =>
    match e with
    | Ev.msgStart _ => true
    | _ => false

/-- Number of reply playback jobs whose timer is still armed. -/
def activeReplies (s : Session) : Nat :=
  s.replyJobs.countP fun j => j.active

/-- States before the transport start event: no engine stream has ever been
created and nothing downstream of one exists. -/
def PreS (s : Session) : Prop :=
  s.streamSid = none ∧ s.sttGen = 0 ∧ s.sttStream = none ∧ s.openStreams = [] ∧
  s.greetPending = 0 ∧ s.replyPending = 0 ∧ s.replyJobs = [] ∧
  s.pendingRestarts = []

/-- Invariant of the session after its single start event: the open engine
streams are at most the currently referenced one; at most one token exists
in the restart pipeline (a pending restart, an in-flight reply synthesis,
or an armed reply timer); a pending restart or an armed reply timer implies
every stream has been ended; and while a reply synthesis is in flight every
open stream has already delivered its single final result. -/
def PostS (s : Session) : Prop :=
  (s.openStreams = [] ∨ ∃ id, s.sttStream = some id ∧ s.openStreams = [id]) ∧
  s.pendingRestarts.length + s.replyPending + activeReplies s ≤ 1 ∧
  (s.pendingRestarts ≠ [] → s.openStreams = []) ∧
  (1 ≤ activeReplies s → s.openStreams = []) ∧
  (1 ≤ s.replyPending → ∀ id ∈ s.openStreams, id ∈ s.finalized)

/-- Membership in a job list is decidable, so nonDiagEmitting is decidable. -/
instance (s : Session) : Decidable (nonDiagEmitting s) := by
  unfold nonDiagEmitting; infer_instance

/- ===== theorems ===== -/

/- ===== range lemmas for the encoder ===== -/

theorem natAndGo_le_right (f : Nat) : ∀ a b : Nat, natAndGo f a b ≤ b := by
  induction f with
  | zero => intro a b; simp [natAndGo]
  | succ f ih =>
    intro a b
    have h1 : natAndGo f (a / 2) (b / 2) ≤ b / 2 := ih (a / 2) (b / 2)
    have h2 : (a % 2) * (b % 2) ≤ b % 2 := by
      rcases Nat.mod_two_eq_zero_or_one a with h | h <;> simp [h]
    simp only [natAndGo]
    omega

theorem jsAnd_255_range (a : Int) : 0 ≤ jsAnd a 255 ∧ jsAnd a 255 ≤ 255 := by
  have hb : (((255 : Int) % 4294967296).toNat) = 255 := by decide
  have h := natAndGo_le_right 32 ((a % 4294967296).toNat) 255
  unfold jsAnd
  rw [hb]
  unfold int32ofNat
  rw [if_pos (by omega)]
  omega

/-- Claim C10: the mu-law encoder is total on every integer sample (values
outside the 16-bit range are clamped, not rejected) and always returns an
integer in the byte range 0..255. -/
theorem c10_encoder_total_range (x : Int) :
    0 ≤ linear2ulaw x ∧ linear2ulaw x ≤ 255 := by
  unfold linear2ulaw
  exact jsAnd_255_range _

/-- Claim C4, evaluation at the failing inputs: the encoder of server.js
computes its segment from pcm >> 7 where the standard companding law uses
pcm >> 8, so the standard decoder expands its codes far outside one
quantization step: sample 0 encodes to byte 231 which decodes to 260
(error 260, against a step of 8 for the segment of 0, or 16 for the
segment the code itself assigns), and sample 8000 decodes to 15996. -/
theorem c4_roundtrip_failure :
    ulaw2linear (linear2ulaw 0).toNat = 260 ∧
    ulaw2linear (linear2ulaw 8000).toNat = 15996 := by
  constructor <;> decide

theorem chunksGo_length {α : Type} (f : Nat) :
    ∀ l : List α, l.length ≤ f → (chunksGo f l).length = (l.length + 159) / 160 := by
  induction f with
  | zero =>
    intro l hl
    have : l = [] := List.length_eq_zero.mp (by omega)
    subst this; simp [chunksGo]
  | succ f ih =>
    intro l hl
    match l with
    | [] => simp [chunksGo]
    | x :: l =>
      have hlen : ((x :: l).drop 160).length = (x :: l).length - 160 := by
        simp [List.length_drop]
      have hrec := ih ((x :: l).drop 160) (by simp at hl ⊢; omega)
      simp only [chunksGo, List.length_cons] at *
      omega

theorem chunksGo_frame_le {α : Type} (f : Nat) :
    ∀ (l : List α) (c : List α), c ∈ chunksGo f l → c.length ≤ 160 := by
  induction f with
  | zero => intro l c hc; simp [chunksGo] at hc
  | succ f ih =>
    intro l c hc
    match l with
    | [] => simp [chunksGo] at hc
    | x :: l =>
      simp only [chunksGo, List.mem_cons] at hc
      rcases hc with hc | hc
      · subst hc
        simp [List.length_take]
      · exact ih _ _ hc

theorem chunksGo_sum {α : Type} (f : Nat) :
    ∀ l : List α, l.length ≤ f →
      ((chunksGo f l).map List.length).sum = l.length := by
  induction f with
  | zero =>
    intro l hl
    have : l = [] := List.length_eq_zero.mp (by omega)
    subst this; simp [chunksGo]
  | succ f ih =>
    intro l hl
    match l with
    | [] => simp [chunksGo]
    | x :: l =>
      have hrec := ih ((x :: l).drop 160) (by simp at hl ⊢; omega)
      simp only [chunksGo, List.map_cons, List.sum_cons, hrec,
        List.length_take, List.length_drop, List.length_cons] at *
      omega

/-- Claim C5: an N-second tone at 8000 samples per second chunks into exactly
ceil(N * 8000 / 160) frames (that is, 50 * N), every frame holds at most 160
samples, and the total encoded length over all frames is N * 8000 bytes. -/
theorem c5_tone_framing (secs : Nat) (sample : Nat → Nat) :
    (makeBeepFrames secs sample).length = (8000 * secs + 159) / 160 ∧
    (makeBeepFrames secs sample).length = 50 * secs ∧
    ((makeBeepFrames secs sample).all fun c => decide (c.length ≤ 160)) = true ∧
    ((makeBeepFrames secs sample).map List.length).sum = 8000 * secs := by
  have hlen : ((List.range (8000 * secs)).map sample).length = 8000 * secs := by
    simp
  unfold makeBeepFrames chunk160
  rw [hlen]
  refine ⟨?_, ?_, ?_, ?_⟩
  · rw [chunksGo_length _ _ (by rw [hlen])]; rw [hlen]
  · rw [chunksGo_length _ _ (by rw [hlen])]; rw [hlen]; omega
  · simp only [List.all_eq_true, decide_eq_true_eq]
    intro c hc; exact chunksGo_frame_le _ _ _ hc
  · rw [chunksGo_sum _ _ (by rw [hlen])]; rw [hlen]

theorem schedTick_inactive (w : Bool) (st : SchedState) (h : st.active = false) :
    schedTick w st = st := by
  simp [schedTick, h]

theorem schedRun_inactive (ws : List Bool) (st : SchedState) (h : st.active = false) :
    schedRun st ws = st := by
  induction ws with
  | nil => rfl
  | cons w ws ih => simp [schedRun, List.foldl_cons, schedTick_inactive w st h] at ih ⊢; exact ih

theorem schedTick_false_inactive (st : SchedState) :
    (schedTick false st).active = false := by
  by_cases h : st.active = false <;> simp [schedTick, h]

theorem schedTick_good (frames : List (List Nat)) (w : Bool) (st : SchedState)
    (h : SchedGood frames st) : SchedGood frames (schedTick w st) := by
  obtain ⟨hf, hi, he⟩ := h
  simp only [schedTick]
  split_ifs with h1 h2 h3
  · exact ⟨hf, hi, he⟩
  · exact ⟨hf, hi, he⟩
  · exact ⟨hf, hi, he⟩
  · rw [hf] at h3
    have hlt : st.i < frames.length := by omega
    refine ⟨hf, ?_, ?_⟩
    · show st.i + 1 ≤ frames.length
      omega
    · show st.emitted ++ [st.frames.getD st.i []] = frames.take (st.i + 1)
      rw [he, hf, List.take_succ]
      simp [List.getD_eq_getElem?_getD, List.getElem?_eq_getElem hlt]

theorem schedRun_good (frames : List (List Nat)) (ws : List Bool) :
    ∀ st, SchedGood frames st → SchedGood frames (schedRun st ws) := by
  induction ws with
  | nil => intro st h; exact h
  | cons w ws ih =>
    intro st h
    simpa [schedRun, List.foldl_cons] using ih _ (schedTick_good frames w st h)

/-- Claim C7: for every frame sequence and every placement of the first
unwritable-sink tick, the run up to and including that tick leaves the timer
cleared, the run is unchanged by any further ticks (none of the remaining
frames are ever emitted), and everything emitted in any run is an in-order
duplicate-free prefix of the frame sequence; the tick function is total, so
no error is raised. -/
theorem c7_scheduler_cancellation (frames : List (List Nat)) (ws1 ws2 : List Bool) :
    (schedRun (schedInit frames) (ws1 ++ [false])).active = false ∧
    schedRun (schedInit frames) (ws1 ++ false :: ws2)
      = schedRun (schedInit frames) (ws1 ++ [false]) ∧
    (∃ k, k ≤ frames.length ∧
      (schedRun (schedInit frames) (ws1 ++ false :: ws2)).emitted = frames.take k) ∧
    (∃ k, k ≤ frames.length ∧
      (schedRun (schedInit frames) (ws1 ++ [false])).emitted = frames.take k) := by
  have hinit : SchedGood frames (schedInit frames) :=
    ⟨rfl, Nat.zero_le _, rfl⟩
  have h1 : (schedRun (schedInit frames) (ws1 ++ [false])).active = false := by
    unfold schedRun
    rw [List.foldl_append]
    exact schedTick_false_inactive _
  refine ⟨h1, ?_, ?_, ?_⟩
  · unfold schedRun
    rw [List.foldl_append, List.foldl_append]
    rw [List.foldl_cons, List.foldl_cons, List.foldl_nil]
    exact schedRun_inactive ws2 _ (schedTick_false_inactive _)
  · have hg := schedRun_good frames (ws1 ++ false :: ws2) _ hinit
    exact ⟨_, hg.2.1, hg.2.2⟩
  · have hg := schedRun_good frames (ws1 ++ [false]) _ hinit
    exact ⟨_, hg.2.1, hg.2.2⟩

/- ===== session theorems ===== -/

/-- Claim C1: an inbound media event delivered while the speaking flag is set
changes nothing but the frame counter — no write reaches the STT stream and
the frame is not buffered anywhere. -/
theorem c1_barge_in_guard (bf : List (List Nat)) (s : Session) (p : List Nat)
    (h : s.speaking = true) :
    step bf s (Ev.msgMedia p) = { s with mediaCount := s.mediaCount + 1 } := by
  simp [step, h]

/-- Witness for C1: in the reachable state following start and a final
transcript the speaking flag is set, and a media event there only bumps
the counter. -/
theorem c1_barge_in_guard_witness :
    (run [] Session.init [Ev.msgStart 1, Ev.sttFinal 0]).speaking = true ∧
    step [] (run [] Session.init [Ev.msgStart 1, Ev.sttFinal 0]) (Ev.msgMedia [3])
      = { run [] Session.init [Ev.msgStart 1, Ev.sttFinal 0] with
            mediaCount := (run [] Session.init [Ev.msgStart 1, Ev.sttFinal 0]).mediaCount + 1 } :=
  ⟨by decide, c1_barge_in_guard [] _ [3] (by decide)⟩

/-- Claim C2 counterexample: after start, greeting synthesis resolving with
two frames, and one greeting tick, the greeting playback job is actively
emitting frames while the speaking flag is false, so the flag is not
equivalent to an outbound (greeting or reply) playback job being active. -/
theorem c2_speaking_iff_counterexample :
    ¬ (((run [] Session.init
          [Ev.msgStart 1, Ev.greetResolved [[1], [2]], Ev.greetTick 0]).speaking = true)
        ↔ nonDiagEmitting (run [] Session.init
          [Ev.msgStart 1, Ev.greetResolved [[1], [2]], Ev.greetTick 0])) := by
  decide

theorem endCurrentStream_speaking (s : Session) :
    (endCurrentStream s).speaking = s.speaking := by
  unfold endCurrentStream; cases s.sttStream <;> rfl

theorem speaking_step_cases (bf : List (List Nat)) (s : Session) (e : Ev) :
    (step bf s e).speaking = s.speaking ∨
    ((∃ id, e = Ev.sttFinal id) ∧ (step bf s e).speaking = true) ∨
    ((e = Ev.ttsRejected ∨ ∃ j t, e = Ev.replyTick j t) ∧ (step bf s e).speaking = false) := by
  cases e
  case msgConnected => exact Or.inl rfl
  case msgMark => exact Or.inl rfl
  case sttInterim id => exact Or.inl rfl
  case sttError id => exact Or.inl rfl
  case msgStart sid => exact Or.inl rfl
  case msgStop => exact Or.inl (endCurrentStream_speaking s)
  case wsClose => exact Or.inl (endCurrentStream_speaking _)
  case msgMedia p =>
    left
    simp only [step]
    split
    · rfl
    · split
      · rfl
      · cases s.sttStream
        · rfl
        · dsimp only
          split <;> rfl
  case sttFinal id =>
    simp only [step]
    split
    · exact Or.inr (Or.inl ⟨⟨id, rfl⟩, rfl⟩)
    · exact Or.inl rfl
  case sttEnd id =>
    simp only [step]; split <;> exact Or.inl rfl
  case greetResolved frames =>
    simp only [step]; split <;> exact Or.inl rfl
  case greetRejected =>
    simp only [step]; split <;> exact Or.inl rfl
  case ttsResolved frames =>
    simp only [step]
    split
    · exact Or.inl rfl
    · exact Or.inl (endCurrentStream_speaking _)
  case ttsRejected =>
    simp only [step]
    split
    · exact Or.inl rfl
    · right; right
      exact ⟨Or.inl (by trivial), (endCurrentStream_speaking _)⟩
  case beepTick j => exact Or.inl rfl
  case greetTick j => exact Or.inl rfl
  case replyTick j now =>
    simp only [step]
    cases hj : s.replyJobs[j]?
    · exact Or.inl rfl
    · dsimp only
      split
      · exact Or.inl rfl
      · split
        · exact Or.inl rfl
        · split
          · exact Or.inr (Or.inr ⟨Or.inr ⟨j, now, rfl⟩, rfl⟩)
          · exact Or.inl rfl
  case restartFire j =>
    simp only [step]
    cases hj : s.pendingRestarts[j]?
    · exact Or.inl rfl
    · dsimp only
      split
      · split <;> exact Or.inl rfl
      · exact Or.inl rfl

/-- Claim C2 amended: the speaking flag changes only through the reply cycle.
It can only become true at an STT finalization, and can only become false at
a reply-playback tick (completion) or a synthesis failure; greeting and beep
playback never touch it. -/
theorem c2_speaking_transitions (bf : List (List Nat)) (s : Session) (e : Ev) :
    ((step bf s e).speaking = true → s.speaking = true ∨ ∃ id, e = Ev.sttFinal id) ∧
    ((step bf s e).speaking = false →
      s.speaking = false ∨ e = Ev.ttsRejected ∨ ∃ j t, e = Ev.replyTick j t) := by
  rcases speaking_step_cases bf s e with h | ⟨⟨id, he⟩, h⟩ | ⟨he, h⟩
  · constructor <;> intro hh <;> exact Or.inl (h.symm.trans hh)
  · constructor
    · intro _; exact Or.inr ⟨id, he⟩
    · intro hh; rw [h] at hh; simp at hh
  · constructor
    · intro hh; rw [h] at hh; simp at hh
    · intro _; exact Or.inr he

/-- Witness for C2 amended, applying the first direction in the state after
a start event where a final transcript arrives. -/
theorem c2_speaking_transitions_witness :
    (run [] Session.init [Ev.msgStart 1]).speaking = true ∨
      ∃ id, Ev.sttFinal 0 = Ev.sttFinal id :=
  (c2_speaking_transitions [] (run [] Session.init [Ev.msgStart 1]) (Ev.sttFinal 0)).1
    (by decide)

/-- Claim C3 counterexample: a second transport start event calls
startSTTStream while the first engine stream is still open and never ends
it, so two STT stream handles are open at once. -/
theorem c3_double_start_counterexample :
    (run [] Session.init [Ev.msgStart 1, Ev.msgStart 2]).openStreams.length = 2 ∧
    ¬ ((run [] Session.init [Ev.msgStart 1, Ev.msgStart 2]).openStreams.length ≤ 1) := by
  decide

/-- Claim C6 counterexample: an engine-reported STT error leaves the session
state completely unchanged (the handler only logs), so no fresh recognition
session is started or scheduled after it. -/
theorem c6_stt_error_noop_counterexample :
    step [] (run [] Session.init [Ev.msgStart 1]) (Ev.sttError 0)
      = run [] Session.init [Ev.msgStart 1] ∧
    (run [] Session.init [Ev.msgStart 1, Ev.sttError 0]).pendingRestarts = [] ∧
    (run [] Session.init [Ev.msgStart 1, Ev.sttError 0]).sttGen = 1 := by
  refine ⟨by decide, by decide, by decide⟩

/-- Claim C8 counterexample: the greeting playback job (non-diagnostic) runs
to completion and the session sends no mark message at all. -/
theorem c8_greeting_no_mark_counterexample :
    (run [] Session.init
      [Ev.msgStart 1, Ev.greetResolved [[5]], Ev.greetTick 0, Ev.greetTick 0]).greetJobs
      = [{ frames := [[5]], idx := 1, active := false }] ∧
    markLabels (run [] Session.init
      [Ev.msgStart 1, Ev.greetResolved [[5]], Ev.greetTick 0, Ev.greetTick 0]).outMsgs
      = [] := by
  decide

/-- Claim C9 counterexample: after a transport stop event the session is not
closed: a subsequent media event still changes state and its payload is even
written to the already-ended STT stream. -/
theorem c9_media_after_stop_counterexample :
    step [] (run [] Session.init [Ev.msgStart 1, Ev.msgStop]) (Ev.msgMedia [7])
      ≠ run [] Session.init [Ev.msgStart 1, Ev.msgStop] ∧
    (step [] (run [] Session.init [Ev.msgStart 1, Ev.msgStop]) (Ev.msgMedia [7])).sttWrites
      = [(0, [7])] := by
  decide

/-- Claim C9 amended: a stop event only half-closes the currently referenced
STT stream (nothing else changes: playback timers stay armed, the closed
flag is not set, no Closed state exists and later events are still
processed); connection close does the same after marking the socket not
open, which makes the playback timers stop at their next tick. -/
theorem c9_stop_close_behavior (bf : List (List Nat)) (s : Session) :
    step bf s Ev.msgStop = endCurrentStream s ∧
    step bf s Ev.wsClose = endCurrentStream { s with wsOpen := false } ∧
    endCurrentStream s = (match s.sttStream with
      | some id => { s with openStreams := s.openStreams.erase id }
      | none => s) := by
  exact ⟨rfl, rfl, rfl⟩

theorem endCurrentStream_outMsgs (s : Session) :
    (endCurrentStream s).outMsgs = s.outMsgs := by
  unfold endCurrentStream; cases s.sttStream <;> rfl

theorem endCurrentStream_pendings (s : Session) :
    (endCurrentStream s).pendingRestarts = s.pendingRestarts := by
  unfold endCurrentStream; cases s.sttStream <;> rfl

/-- Claim C6 amended: a fresh recognition session is scheduled with a 50 ms
guarded backoff when the reply playback for a finalized utterance completes,
and with a 100 ms unguarded backoff when reply synthesis fails; an
engine-reported STT error causes no restart at all (the handler only logs);
a scheduled restart, when it fires, opens a fresh engine stream. -/
theorem c6_restart_amended :
    (∀ (bf : List (List Nat)) (s : Session) (j t : Nat) (job : PlayJob),
        s.replyJobs[j]? = some job → job.active = true → s.wsOpen = true →
        job.frames.length ≤ job.idx →
        (step bf s (Ev.replyTick j t)).pendingRestarts
          = s.pendingRestarts ++ [{ guarded := true, delayMs := 50 }]) ∧
    (∀ (bf : List (List Nat)) (s : Session), 1 ≤ s.replyPending →
        (step bf s Ev.ttsRejected).pendingRestarts
          = s.pendingRestarts ++ [{ guarded := false, delayMs := 100 }]) ∧
    (∀ (bf : List (List Nat)) (s : Session) (id : Nat), step bf s (Ev.sttError id) = s) ∧
    (∀ (bf : List (List Nat)) (s : Session) (j : Nat) (r : PendingRestart),
        s.pendingRestarts[j]? = some r → (r.guarded = true → s.wsOpen = true) →
        (step bf s (Ev.restartFire j)).sttGen = s.sttGen + 1 ∧
        (step bf s (Ev.restartFire j)).sttStream = some s.sttGen ∧
        (step bf s (Ev.restartFire j)).sttClosed = false) := by
  refine ⟨?_, ?_, ?_, ?_⟩
  · intro bf s j t job hj hact hws hlen
    simp [step, hj, hact, hws, hlen]
  · intro bf s h
    have h0 : ¬ s.replyPending = 0 := by omega
    simp only [step, if_neg h0]
    rw [endCurrentStream_pendings]
  · intro bf s id; rfl
  · intro bf s j r hj hg
    simp only [step, hj]
    by_cases hgg : r.guarded = true
    · rw [if_pos hgg, if_pos (hg hgg)]
      exact ⟨rfl, rfl, rfl⟩
    · rw [if_neg hgg]
      exact ⟨rfl, rfl, rfl⟩

/-- Witness for C6 amended, applying all four conjuncts at concrete states. -/
theorem c6_restart_amended_witness :
    (step [] { Session.init with
        replyJobs := [{ frames := [], idx := 0, active := true }] }
        (Ev.replyTick 0 5)).pendingRestarts
      = [] ++ [{ guarded := true, delayMs := 50 }] ∧
    (step [] { Session.init with replyPending := 1 } Ev.ttsRejected).pendingRestarts
      = [] ++ [{ guarded := false, delayMs := 100 }] ∧
    step [] Session.init (Ev.sttError 0) = Session.init ∧
    ((step [] { Session.init with
        pendingRestarts := [{ guarded := false, delayMs := 100 }] }
        (Ev.restartFire 0)).sttGen
      = { Session.init with
            pendingRestarts := [{ guarded := false, delayMs := 100 }] }.sttGen + 1 ∧
     (step [] { Session.init with
        pendingRestarts := [{ guarded := false, delayMs := 100 }] }
        (Ev.restartFire 0)).sttStream = some 0 ∧
     (step [] { Session.init with
        pendingRestarts := [{ guarded := false, delayMs := 100 }] }
        (Ev.restartFire 0)).sttClosed = false) :=
  ⟨c6_restart_amended.1 [] _ 0 5 { frames := [], idx := 0, active := true }
      (by decide) (by decide) (by decide) (by decide),
   c6_restart_amended.2.1 [] _ (by decide),
   c6_restart_amended.2.2.1 [] Session.init 0,
   c6_restart_amended.2.2.2 [] _ 0 { guarded := false, delayMs := 100 }
      (by decide) (by decide)⟩

theorem markLabels_append (a b : List OutMsg) :
    markLabels (a ++ b) = markLabels a ++ markLabels b := by
  unfold markLabels; exact List.filterMap_append a b _

theorem playTick_no_marks (sid : Option Nat) (w : Bool) (jobs : List PlayJob) (j : Nat) :
    markLabels (playTick sid w jobs j).2 = [] := by
  unfold playTick
  cases jobs[j]?
  · rfl
  · dsimp only
    split
    · rfl
    · split
      · rfl
      · split <;> rfl

theorem marks_step (bf : List (List Nat)) (s : Session) (e : Ev) :
    markLabels (step bf s e).outMsgs = markLabels s.outMsgs ∨
    ∃ j t, e = Ev.replyTick j t ∧
      markLabels (step bf s e).outMsgs = markLabels s.outMsgs ++ [t] := by
  cases e
  case msgConnected => exact Or.inl rfl
  case msgMark => exact Or.inl rfl
  case sttInterim id => exact Or.inl rfl
  case sttError id => exact Or.inl rfl
  case msgStart sid =>
    left
    show markLabels (s.outMsgs ++ [OutMsg.clear (some sid)]) = markLabels s.outMsgs
    rw [markLabels_append]; simp [markLabels]
  case msgMedia p =>
    left
    simp only [step]
    split
    · rfl
    · split
      · rfl
      · cases s.sttStream
        · rfl
        · dsimp only
          split <;> rfl
  case msgStop => exact Or.inl (by rw [show step bf s Ev.msgStop = endCurrentStream s from rfl, endCurrentStream_outMsgs])
  case wsClose => exact Or.inl (by rw [show step bf s Ev.wsClose = endCurrentStream { s with wsOpen := false } from rfl, endCurrentStream_outMsgs])
  case sttFinal id => simp only [step]; split <;> exact Or.inl rfl
  case sttEnd id => simp only [step]; split <;> exact Or.inl rfl
  case greetResolved frames => simp only [step]; split <;> exact Or.inl rfl
  case greetRejected => simp only [step]; split <;> exact Or.inl rfl
  case ttsResolved frames =>
    simp only [step]
    split
    · exact Or.inl rfl
    · exact Or.inl (by rw [endCurrentStream_outMsgs])
  case ttsRejected =>
    simp only [step]
    split
    · exact Or.inl rfl
    · exact Or.inl (by rw [endCurrentStream_outMsgs])
  case beepTick j =>
    left
    show markLabels (s.outMsgs ++ (playTick s.streamSid s.wsOpen s.beepJobs j).2)
        = markLabels s.outMsgs
    rw [markLabels_append, playTick_no_marks, List.append_nil]
  case greetTick j =>
    left
    show markLabels (s.outMsgs ++ (playTick s.streamSid s.wsOpen s.greetJobs j).2)
        = markLabels s.outMsgs
    rw [markLabels_append, playTick_no_marks, List.append_nil]
  case replyTick j now =>
    simp only [step]
    cases s.replyJobs[j]?
    · exact Or.inl rfl
    · dsimp only
      split
      · exact Or.inl rfl
      · split
        · exact Or.inl rfl
        · split
          · refine Or.inr ⟨j, now, rfl, ?_⟩
            show markLabels (s.outMsgs ++ [OutMsg.mark s.streamSid now])
                = markLabels s.outMsgs ++ [now]
            rw [markLabels_append]; simp [markLabels]
          · left
            show markLabels (s.outMsgs ++ [OutMsg.media s.streamSid _])
                = markLabels s.outMsgs
            rw [markLabels_append]; simp [markLabels]
  case restartFire j =>
    simp only [step]
    cases s.pendingRestarts[j]?
    · exact Or.inl rfl
    · dsimp only
      split
      · split <;> exact Or.inl rfl
      · exact Or.inl rfl

theorem replyTickTimes_cons_sublist (e : Ev) (evs : List Ev) :
    (replyTickTimes evs).Sublist (replyTickTimes (e :: evs)) := by
  unfold replyTickTimes
  rw [List.filterMap_cons]
  cases e <;> simp

theorem marks_run (bf : List (List Nat)) :
    ∀ (evs : List Ev) (s : Session),
      ∃ l, markLabels (run bf s evs).outMsgs = markLabels s.outMsgs ++ l ∧
        l.Sublist (replyTickTimes evs) := by
  intro evs
  induction evs with
  | nil => intro s; exact ⟨[], by simp [run], by simp⟩
  | cons e evs ih =>
    intro s
    obtain ⟨l, hl, hsub⟩ := ih (step bf s e)
    have hrun : run bf s (e :: evs) = run bf (step bf s e) evs := rfl
    rcases marks_step bf s e with h | ⟨j, t, he, h⟩
    · refine ⟨l, ?_, hsub.trans (replyTickTimes_cons_sublist e evs)⟩
      rw [hrun, hl, h]
    · subst he
      refine ⟨t :: l, ?_, ?_⟩
      · rw [hrun, hl, h]; simp
      · have ht : replyTickTimes (Ev.replyTick j t :: evs) = t :: replyTickTimes evs := by
          unfold replyTickTimes; rw [List.filterMap_cons]
        rw [ht]
        exact hsub.cons₂ t

/-- Claim C8 amended: exactly one mark is sent per completed reply playback
job (the completion tick appends exactly one mark, labelled with the tick
Date.now() value; no other event ever appends a mark, in particular
completed greeting or beep playback send none), and the labels are pairwise
distinct whenever the reply completion ticks carry distinct timestamps. -/
theorem c8_marks_amended :
    (∀ (bf : List (List Nat)) (s : Session) (j t : Nat) (job : PlayJob),
        s.replyJobs[j]? = some job → job.active = true → s.wsOpen = true →
        job.frames.length ≤ job.idx →
        markLabels (step bf s (Ev.replyTick j t)).outMsgs
          = markLabels s.outMsgs ++ [t]) ∧
    (∀ (bf : List (List Nat)) (s : Session) (e : Ev),
        (∀ j t, e ≠ Ev.replyTick j t) →
        markLabels (step bf s e).outMsgs = markLabels s.outMsgs) ∧
    (∀ (bf : List (List Nat)) (evs : List Ev),
        (replyTickTimes evs).Nodup →
        (markLabels (run bf Session.init evs).outMsgs).Nodup) := by
  refine ⟨?_, ?_, ?_⟩
  · intro bf s j t job hj hact hws hlen
    simp only [step, hj]
    rw [if_neg (by simp [hact]), if_neg (by simp [hws]), if_pos hlen]
    rw [markLabels_append]; simp [markLabels]
  · intro bf s e hne
    rcases marks_step bf s e with h | ⟨j, t, he, _⟩
    · exact h
    · exact absurd he (hne j t)
  · intro bf evs h
    obtain ⟨l, hl, hsub⟩ := marks_run bf evs Session.init
    rw [hl]
    have : markLabels Session.init.outMsgs = [] := rfl
    rw [this, List.nil_append]
    exact h.sublist hsub

theorem countP_set_true_false {α : Type} (p : α → Bool) (l : List α) :
    ∀ (j : Nat) (a x : α), l[j]? = some a → p a = true → p x = false →
      (l.set j x).countP p + 1 = l.countP p := by
  induction l with
  | nil => intro j a x h _ _; simp at h
  | cons b l ih =>
    intro j a x h hpa hpx
    cases j with
    | zero =>
      simp at h; subst h
      simp [List.countP_cons, hpa, hpx]
    | succ j =>
      simp at h
      have := ih j a x h hpa hpx
      simp [List.countP_cons]
      omega

theorem countP_set_same {α : Type} (p : α → Bool) (l : List α) :
    ∀ (j : Nat) (a x : α), l[j]? = some a → p x = p a →
      (l.set j x).countP p = l.countP p := by
  induction l with
  | nil => intro j a x h _; simp at h
  | cons b l ih =>
    intro j a x h hp
    cases j with
    | zero =>
      simp at h; subst h
      simp [List.countP_cons, hp]
    | succ j =>
      simp at h
      have := ih j a x h hp
      simp [List.countP_cons]
      omega

theorem countP_pos_of_getElem {α : Type} (p : α → Bool) (l : List α) :
    ∀ (j : Nat) (a : α), l[j]? = some a → p a = true → 1 ≤ l.countP p := by
  induction l with
  | nil => intro j a h _; simp at h
  | cons b l ih =>
    intro j a h hpa
    cases j with
    | zero =>
      simp at h; subst h
      simp [List.countP_cons, hpa]
    | succ j =>
      simp at h
      have := ih j a h hpa
      simp [List.countP_cons]
      omega

theorem endCurrentStream_openStreams_nil (s : Session)
    (h : s.openStreams = [] ∨ ∃ id, s.sttStream = some id ∧ s.openStreams = [id]) :
    (endCurrentStream s).openStreams = [] := by
  unfold endCurrentStream
  rcases h with h | ⟨id, hid, h⟩
  · cases s.sttStream
    · exact h
    · dsimp only; rw [h]; rfl
  · rw [hid]; dsimp only; rw [h]
    simp

theorem endCurrentStream_replyJobs (s : Session) :
    (endCurrentStream s).replyJobs = s.replyJobs := by
  unfold endCurrentStream; cases s.sttStream <;> rfl

theorem endCurrentStream_replyPending (s : Session) :
    (endCurrentStream s).replyPending = s.replyPending := by
  unfold endCurrentStream; cases s.sttStream <;> rfl

theorem postS_congr (s s2 : Session)
    (h1 : s2.openStreams = s.openStreams) (h2 : s2.sttStream = s.sttStream)
    (h3 : s2.pendingRestarts = s.pendingRestarts) (h4 : s2.replyPending = s.replyPending)
    (h5 : s2.replyJobs = s.replyJobs) (h6 : ∀ x ∈ s.finalized, x ∈ s2.finalized)
    (hs : PostS s) : PostS s2 := by
  obtain ⟨hshape, hsum, hpnd, hact, hfin⟩ := hs
  refine ⟨?_, ?_, ?_, ?_, ?_⟩
  · rw [h1, h2]; exact hshape
  · unfold activeReplies at hsum ⊢
    rw [h3, h4, h5]; exact hsum
  · intro hh; rw [h1]; exact hpnd (by rw [← h3]; exact hh)
  · intro hh; rw [h1]
    apply hact
    unfold activeReplies at hh ⊢
    rw [← h5]; exact hh
  · intro hh id2 hid2
    exact h6 _ (hfin (by rw [← h4]; exact hh) id2 (by rw [← h1]; exact hid2))

theorem postS_step (bf : List (List Nat)) (s : Session) (e : Ev)
    (hs : PostS s) (hne : ∀ sid, e ≠ Ev.msgStart sid) : PostS (step bf s e) := by
  obtain ⟨hshape, hsum, hpnd, hact, hfin⟩ := hs
  cases e
  case msgStart sid => exact absurd rfl (hne sid)
  case msgConnected => exact ⟨hshape, hsum, hpnd, hact, hfin⟩
  case msgMark => exact ⟨hshape, hsum, hpnd, hact, hfin⟩
  case sttInterim id => exact ⟨hshape, hsum, hpnd, hact, hfin⟩
  case sttError id => exact ⟨hshape, hsum, hpnd, hact, hfin⟩
  case msgMedia p =>
    have hs0 : PostS s := ⟨hshape, hsum, hpnd, hact, hfin⟩
    simp only [step]
    split
    · exact postS_congr s _ rfl rfl rfl rfl rfl (fun x hx => hx) hs0
    · split
      · exact postS_congr s _ rfl rfl rfl rfl rfl (fun x hx => hx) hs0
      · cases hss : s.sttStream
        · exact postS_congr s _ rfl hss.symm rfl rfl rfl (fun x hx => hx) hs0
        · dsimp only
          split
          · exact postS_congr s _ rfl hss.symm rfl rfl rfl (fun x hx => hx) hs0
          · exact postS_congr s _ rfl hss.symm rfl rfl rfl (fun x hx => hx) hs0
  case msgStop =>
    show PostS (endCurrentStream s)
    have hn : (endCurrentStream s).openStreams = [] :=
      endCurrentStream_openStreams_nil s hshape
    refine ⟨Or.inl hn, ?_, fun _ => hn, fun _ => hn, ?_⟩
    · show (endCurrentStream s).pendingRestarts.length + (endCurrentStream s).replyPending
          + activeReplies (endCurrentStream s) ≤ 1
      unfold activeReplies
      rw [endCurrentStream_pendings, endCurrentStream_replyPending,
        endCurrentStream_replyJobs]
      exact hsum
    · intro _ id2 hid2
      rw [hn] at hid2; simp at hid2
  case wsClose =>
    show PostS (endCurrentStream { s with wsOpen := false })
    have hn : (endCurrentStream { s with wsOpen := false }).openStreams = [] :=
      endCurrentStream_openStreams_nil { s with wsOpen := false } hshape
    refine ⟨Or.inl hn, ?_, fun _ => hn, fun _ => hn, ?_⟩
    · show (endCurrentStream { s with wsOpen := false }).pendingRestarts.length
          + (endCurrentStream { s with wsOpen := false }).replyPending
          + activeReplies (endCurrentStream { s with wsOpen := false }) ≤ 1
      unfold activeReplies
      rw [endCurrentStream_pendings, endCurrentStream_replyPending,
        endCurrentStream_replyJobs]
      exact hsum
    · intro _ id2 hid2
      rw [hn] at hid2; simp at hid2
  case sttEnd id =>
    simp only [step]
    split
    · refine ⟨?_, hsum, ?_, ?_, ?_⟩
      · rcases hshape with h0 | ⟨id0, hid0, hOS⟩
        · exact Or.inl (by rw [h0]; rfl)
        · by_cases hii : id = id0
          · left
            show s.openStreams.erase id = []
            rw [hOS, hii]; simp
          · right
            refine ⟨id0, hid0, ?_⟩
            show s.openStreams.erase id = [id0]
            rw [hOS, List.erase_of_not_mem (by simp [hii])]
      · intro hh
        show s.openStreams.erase id = []
        rw [hpnd hh]; rfl
      · intro hh
        show s.openStreams.erase id = []
        have : 1 ≤ activeReplies s := hh
        rw [hact this]; rfl
      · intro hh id2 hid2
        exact hfin hh id2 (List.mem_of_mem_erase hid2)
    · exact ⟨hshape, hsum, hpnd, hact, hfin⟩
  case greetResolved frames =>
    simp only [step]
    split
    · exact ⟨hshape, hsum, hpnd, hact, hfin⟩
    · exact ⟨hshape, hsum, hpnd, hact, hfin⟩
  case greetRejected =>
    simp only [step]
    split
    · exact ⟨hshape, hsum, hpnd, hact, hfin⟩
    · exact ⟨hshape, hsum, hpnd, hact, hfin⟩
  case beepTick j => exact ⟨hshape, hsum, hpnd, hact, hfin⟩
  case greetTick j => exact ⟨hshape, hsum, hpnd, hact, hfin⟩
  case sttFinal id =>
    simp only [step]
    split
    · rename_i hg
      obtain ⟨hmem, hnf⟩ := hg
      have hne2 : s.openStreams ≠ [] := by
        intro hh; rw [hh] at hmem; simp at hmem
      rcases hshape with h0 | ⟨id0, hid0, hOS⟩
      · exact absurd h0 hne2
      have hid : id = id0 := by rw [hOS] at hmem; simpa using hmem
      have hp0 : s.pendingRestarts = [] := by
        by_contra hh
        have := hpnd hh
        rw [hOS] at this; simp at this
      have hact0 : activeReplies s = 0 := by
        by_contra hh
        have h1 : 1 ≤ activeReplies s := Nat.pos_of_ne_zero hh
        have := hact h1
        rw [hOS] at this; simp at this
      have hrp0 : s.replyPending = 0 := by
        by_contra hh
        have h1 : 1 ≤ s.replyPending := Nat.pos_of_ne_zero hh
        exact hnf (hfin h1 id hmem)
      have hl0 : s.pendingRestarts.length = 0 := by rw [hp0]; rfl
      refine ⟨Or.inr ⟨id0, hid0, hOS⟩, ?_, ?_, ?_, ?_⟩
      · show s.pendingRestarts.length + (s.replyPending + 1) + activeReplies s ≤ 1
        omega
      · intro hh
        exact absurd hp0 hh
      · intro hh
        exfalso
        have h2 : 1 ≤ activeReplies s := hh
        omega
      · intro _ id2 hid2
        have hm : id2 ∈ s.openStreams := hid2
        rw [hOS] at hm
        have : id2 = id0 := by simpa using hm
        show id2 ∈ id :: s.finalized
        rw [this, ← hid]
        exact List.mem_cons_self id s.finalized
    · exact ⟨hshape, hsum, hpnd, hact, hfin⟩
  case ttsResolved frames =>
    simp only [step]
    split
    · exact ⟨hshape, hsum, hpnd, hact, hfin⟩
    · rename_i hrp0
      have hn : (endCurrentStream
          { s with replyPending := s.replyPending - 1,
                   replyJobs := s.replyJobs ++ [{ frames := frames, idx := 0, active := true }],
                   sttClosed := true }).openStreams = [] :=
        endCurrentStream_openStreams_nil _ hshape
      refine ⟨Or.inl hn, ?_, fun _ => hn, fun _ => hn, ?_⟩
      · show (endCurrentStream _).pendingRestarts.length + (endCurrentStream _).replyPending
            + activeReplies (endCurrentStream _) ≤ 1
        unfold activeReplies
        rw [endCurrentStream_pendings, endCurrentStream_replyPending,
          endCurrentStream_replyJobs]
        show s.pendingRestarts.length + (s.replyPending - 1)
            + (s.replyJobs ++ ([{ frames := frames, idx := 0, active := true }] : List PlayJob)).countP
              (fun jb : PlayJob => jb.active) ≤ 1
        rw [List.countP_append]
        have h1 : ([{ frames := frames, idx := 0, active := true }] : List PlayJob).countP
            (fun jb : PlayJob => jb.active) = 1 := by simp [List.countP_cons]
        unfold activeReplies at hsum
        omega
      · intro _ id2 hid2
        rw [hn] at hid2; simp at hid2
  case ttsRejected =>
    simp only [step]
    split
    · exact ⟨hshape, hsum, hpnd, hact, hfin⟩
    · rename_i hrp0
      have hn : (endCurrentStream
          { s with replyPending := s.replyPending - 1, speaking := false,
                   pendingRestarts := s.pendingRestarts ++ [{ guarded := false, delayMs := 100 }],
                   sttClosed := true }).openStreams = [] :=
        endCurrentStream_openStreams_nil _ hshape
      refine ⟨Or.inl hn, ?_, fun _ => hn, fun _ => hn, ?_⟩
      · show (endCurrentStream _).pendingRestarts.length + (endCurrentStream _).replyPending
            + activeReplies (endCurrentStream _) ≤ 1
        unfold activeReplies
        rw [endCurrentStream_pendings, endCurrentStream_replyPending,
          endCurrentStream_replyJobs]
        show (s.pendingRestarts ++ ([{ guarded := false, delayMs := 100 }] : List PendingRestart)).length
            + (s.replyPending - 1) + s.replyJobs.countP (fun jb : PlayJob => jb.active) ≤ 1
        rw [List.length_append]
        unfold activeReplies at hsum
        simp only [List.length_cons, List.length_nil]
        omega
      · intro _ id2 hid2
        rw [hn] at hid2; simp at hid2
  case replyTick j now =>
    simp only [step]
    cases hj : s.replyJobs[j]?
    · exact ⟨hshape, hsum, hpnd, hact, hfin⟩
    · rename_i job
      dsimp only
      split
      · exact ⟨hshape, hsum, hpnd, hact, hfin⟩
      · rename_i hact2
        have hjact : job.active = true := by
          revert hact2; cases job.active <;> simp
        have h1le : 1 ≤ activeReplies s := by
          unfold activeReplies
          exact countP_pos_of_getElem (fun jb : PlayJob => jb.active) s.replyJobs j job hj hjact
        have hOSnil : s.openStreams = [] := hact h1le
        split
        · have hdec := countP_set_true_false (fun jb : PlayJob => jb.active) s.replyJobs j job
            { job with active := false } hj hjact rfl
          refine ⟨Or.inl hOSnil, ?_, fun _ => hOSnil, fun _ => hOSnil, ?_⟩
          · show s.pendingRestarts.length + s.replyPending
                + (s.replyJobs.set j { job with active := false }).countP
                  (fun jb : PlayJob => jb.active) ≤ 1
            unfold activeReplies at hsum
            omega
          · intro _ id2 hid2
            rw [hOSnil] at hid2; simp at hid2
        · split
          · have hdec := countP_set_true_false (fun jb : PlayJob => jb.active) s.replyJobs j job
              { job with active := false } hj hjact rfl
            refine ⟨Or.inl hOSnil, ?_, fun _ => hOSnil, fun _ => hOSnil, ?_⟩
            · show (s.pendingRestarts ++ ([{ guarded := true, delayMs := 50 }] : List PendingRestart)).length
                  + s.replyPending
                  + (s.replyJobs.set j { job with active := false }).countP
                    (fun jb : PlayJob => jb.active) ≤ 1
              rw [List.length_append]
              unfold activeReplies at hsum h1le
              simp only [List.length_cons, List.length_nil]
              omega
            · intro _ id2 hid2
              rw [hOSnil] at hid2; simp at hid2
          · have hsame := countP_set_same (fun jb : PlayJob => jb.active) s.replyJobs j job
              { job with idx := job.idx + 1 } hj rfl
            refine ⟨hshape, ?_, hpnd, ?_, hfin⟩
            · show s.pendingRestarts.length + s.replyPending
                  + (s.replyJobs.set j { job with idx := job.idx + 1 }).countP
                    (fun jb : PlayJob => jb.active) ≤ 1
              unfold activeReplies at hsum
              omega
            · intro hh
              apply hact
              show 1 ≤ activeReplies s
              have h2 : 1 ≤ (s.replyJobs.set j { job with idx := job.idx + 1 }).countP
                  (fun jb : PlayJob => jb.active) := hh
              unfold activeReplies
              omega
  case restartFire j =>
    simp only [step]
    cases hj : s.pendingRestarts[j]?
    · exact ⟨hshape, hsum, hpnd, hact, hfin⟩
    · rename_i r
      dsimp only
      have hjlt : j < s.pendingRestarts.length := by
        by_contra hh
        rw [List.getElem?_eq_none (by omega)] at hj
        cases hj
      have hpne : s.pendingRestarts ≠ [] := by
        intro hh; rw [hh] at hjlt; simp at hjlt
      have hOSnil : s.openStreams = [] := hpnd hpne
      have hrp0 : s.replyPending = 0 := by omega
      have hact0 : activeReplies s = 0 := by omega
      have hlen1 : s.pendingRestarts.length = 1 := by omega
      have herase : (s.pendingRestarts.eraseIdx j).length = 0 := by
        rw [List.length_eraseIdx]
        simp [hjlt]
        omega
      have herase_nil : s.pendingRestarts.eraseIdx j = [] :=
        List.length_eq_zero.mp herase
      have hpost1 : PostS (startSTT
          { s with pendingRestarts := s.pendingRestarts.eraseIdx j }) := by
        refine ⟨Or.inr ⟨s.sttGen, rfl, ?_⟩, ?_, ?_, ?_, ?_⟩
        · show s.sttGen :: s.openStreams = [s.sttGen]
          rw [hOSnil]
        · show (s.pendingRestarts.eraseIdx j).length + s.replyPending + activeReplies s ≤ 1
          omega
        · intro hh
          exact absurd herase_nil hh
        · intro hh
          exfalso
          have h2 : 1 ≤ activeReplies s := hh
          omega
        · intro hh
          exfalso
          have h2 : 1 ≤ s.replyPending := hh
          omega
      have hpost2 : PostS ({ s with pendingRestarts := s.pendingRestarts.eraseIdx j }) := by
        refine ⟨Or.inl hOSnil, ?_, fun _ => hOSnil, fun _ => hOSnil, ?_⟩
        · show (s.pendingRestarts.eraseIdx j).length + s.replyPending + activeReplies s ≤ 1
          omega
        · intro _ id2 hid2
          rw [hOSnil] at hid2; simp at hid2
      split
      · split
        · exact hpost1
        · exact hpost2
      · exact hpost1

theorem preS_step (bf : List (List Nat)) (s : Session) (e : Ev)
    (hs : PreS s) (hne : ∀ sid, e ≠ Ev.msgStart sid) : PreS (step bf s e) := by
  obtain ⟨h1, h2, h3, h4, h5, h6, h7, h8⟩ := hs
  cases e
  case msgStart sid => exact absurd rfl (hne sid)
  case msgConnected => exact ⟨h1, h2, h3, h4, h5, h6, h7, h8⟩
  case msgMark => exact ⟨h1, h2, h3, h4, h5, h6, h7, h8⟩
  case sttInterim id => exact ⟨h1, h2, h3, h4, h5, h6, h7, h8⟩
  case sttError id => exact ⟨h1, h2, h3, h4, h5, h6, h7, h8⟩
  case msgMedia p =>
    simp only [step, h3]
    split
    · exact ⟨h1, h2, rfl, h4, h5, h6, h7, h8⟩
    · split
      · exact ⟨h1, h2, rfl, h4, h5, h6, h7, h8⟩
      · exact ⟨h1, h2, rfl, h4, h5, h6, h7, h8⟩
  case msgStop =>
    show PreS (endCurrentStream s)
    unfold endCurrentStream
    rw [h3]
    exact ⟨h1, h2, h3, h4, h5, h6, h7, h8⟩
  case wsClose =>
    show PreS (endCurrentStream { s with wsOpen := false })
    unfold endCurrentStream
    rw [show ({ s with wsOpen := false } : Session).sttStream = none from h3]
    exact ⟨h1, h2, rfl, h4, h5, h6, h7, h8⟩
  case sttFinal id =>
    simp only [step]
    rw [if_neg (by rw [h4]; simp)]
    exact ⟨h1, h2, h3, h4, h5, h6, h7, h8⟩
  case sttEnd id =>
    simp only [step]
    rw [if_neg (by rw [h2]; omega)]
    exact ⟨h1, h2, h3, h4, h5, h6, h7, h8⟩
  case greetResolved frames =>
    simp only [step]
    rw [if_pos h5]
    exact ⟨h1, h2, h3, h4, h5, h6, h7, h8⟩
  case greetRejected =>
    simp only [step]
    rw [if_pos h5]
    exact ⟨h1, h2, h3, h4, h5, h6, h7, h8⟩
  case ttsResolved frames =>
    simp only [step]
    rw [if_pos h6]
    exact ⟨h1, h2, h3, h4, h5, h6, h7, h8⟩
  case ttsRejected =>
    simp only [step]
    rw [if_pos h6]
    exact ⟨h1, h2, h3, h4, h5, h6, h7, h8⟩
  case beepTick j => exact ⟨h1, h2, h3, h4, h5, h6, h7, h8⟩
  case greetTick j => exact ⟨h1, h2, h3, h4, h5, h6, h7, h8⟩
  case replyTick j now =>
    simp only [step, h7]
    exact ⟨h1, h2, h3, h4, h5, h6, h7, h8⟩
  case restartFire j =>
    simp only [step, h8]
    exact ⟨h1, h2, h3, h4, h5, h6, h7, h8⟩

theorem preS_start (bf : List (List Nat)) (s : Session) (sid : Nat)
    (hs : PreS s) : PostS (step bf s (Ev.msgStart sid)) := by
  obtain ⟨h1, h2, h3, h4, h5, h6, h7, h8⟩ := hs
  refine ⟨Or.inr ⟨s.sttGen, rfl, ?_⟩, ?_, ?_, ?_, ?_⟩
  · show s.sttGen :: s.openStreams = [s.sttGen]
    rw [h4]
  · show s.pendingRestarts.length + s.replyPending
        + s.replyJobs.countP (fun jb : PlayJob => jb.active) ≤ 1
    rw [h8, h6, h7]; simp
  · intro hh
    exact absurd h8 hh
  · intro hh
    exfalso
    have h9 : 1 ≤ s.replyJobs.countP (fun jb : PlayJob => jb.active) := hh
    rw [h7] at h9; simp at h9
  · intro hh
    exfalso
    have h9 : 1 ≤ s.replyPending := hh
    omega

theorem run_post (bf : List (List Nat)) :
    ∀ (evs : List Ev) (s : Session), PostS s → startCount evs = 0 →
      PostS (run bf s evs) := by
  intro evs
  induction evs with
  | nil => intro s h _; exact h
  | cons e evs ih =>
    intro s h h0
    have he : ∀ sid, e ≠ Ev.msgStart sid := by
      intro sid hh
      subst hh
      unfold startCount at h0
      rw [List.countP_cons] at h0
      simp at h0
    have h0a : startCount evs = 0 := by
      unfold startCount at h0 ⊢
      rw [List.countP_cons] at h0
      omega
    exact ih (step bf s e) (postS_step bf s e h he) h0a

theorem run_pre (bf : List (List Nat)) :
    ∀ (evs : List Ev) (s : Session), PreS s → startCount evs ≤ 1 →
      PreS (run bf s evs) ∨ PostS (run bf s evs) := by
  intro evs
  induction evs with
  | nil => intro s h _; exact Or.inl h
  | cons e evs ih =>
    intro s h hc
    by_cases hstart : ∃ sid, e = Ev.msgStart sid
    · obtain ⟨sid, rfl⟩ := hstart
      right
      have h0 : startCount evs = 0 := by
        unfold startCount at hc ⊢
        rw [List.countP_cons] at hc
        have h1 : List.countP
            (fun e => match e with | Ev.msgStart _ => true | _ => false) evs + 1 ≤ 1 := by
          simpa using hc
        omega
      exact run_post bf evs _ (preS_start bf s sid h) h0
    · have he : ∀ sid, e ≠ Ev.msgStart sid := fun sid hh => hstart ⟨sid, hh⟩
      have hc2 : startCount evs ≤ 1 := by
        unfold startCount at hc ⊢
        rw [List.countP_cons] at hc
        omega
      exact ih (step bf s e) (preS_step bf s e h he) hc2

/-- Claim C3 amended: over every event sequence containing at most one
transport start event, every reachable session state has at most one open
STT stream handle. -/
theorem c3_single_start_invariant (bf : List (List Nat)) (evs : List Ev)
    (h : startCount evs ≤ 1) :
    (run bf Session.init evs).openStreams.length ≤ 1 := by
  have hpre : PreS Session.init := ⟨rfl, rfl, rfl, rfl, rfl, rfl, rfl, rfl⟩
  rcases run_pre bf evs Session.init hpre h with h2 | h2
  · obtain ⟨_, _, _, h4, _, _, _, _⟩ := h2
    rw [h4]; simp
  · obtain ⟨hshape, _⟩ := h2
    rcases hshape with h0 | ⟨id, _, hOS⟩
    · rw [h0]; simp
    · rw [hOS]; simp

/-- Witness for C3 amended on a full conversation turn: start, final
transcript, synthesis, playback to completion, and the restart firing. -/
theorem c3_single_start_invariant_witness :
    startCount [Ev.msgStart 1, Ev.sttFinal 0, Ev.ttsResolved [[1]], Ev.replyTick 0 7,
      Ev.replyTick 0 8, Ev.restartFire 0] ≤ 1 ∧
    (run [] Session.init [Ev.msgStart 1, Ev.sttFinal 0, Ev.ttsResolved [[1]],
      Ev.replyTick 0 7, Ev.replyTick 0 8, Ev.restartFire 0]).openStreams.length ≤ 1 :=
  ⟨by decide, c3_single_start_invariant [] _ (by decide)⟩

/-- Witness for C8 amended, applying the three conjuncts at concrete
states and traces. -/
theorem c8_marks_amended_witness :
    markLabels (step [] { Session.init with
        replyJobs := [{ frames := [], idx := 0, active := true }] }
        (Ev.replyTick 0 42)).outMsgs
      = markLabels ({ Session.init with
          replyJobs := [{ frames := [], idx := 0, active := true }] } : Session).outMsgs
        ++ [42] ∧
    markLabels (step [] Session.init Ev.msgConnected).outMsgs
      = markLabels Session.init.outMsgs ∧
    (markLabels (run [] Session.init [Ev.msgStart 1]).outMsgs).Nodup :=
  ⟨c8_marks_amended.1 [] _ 0 42 { frames := [], idx := 0, active := true }
      (by decide) (by decide) (by decide) (by decide),
   c8_marks_amended.2.1 [] Session.init Ev.msgConnected (fun j t h => nomatch h),
   c8_marks_amended.2.2 [] [Ev.msgStart 1] (by decide)⟩
